import Mathlib

/-!
Shallow embedding of the `tailscale-localapi` crate (`src/lib.rs`): the error
taxonomy, the two transport backends (`UnixStreamClient`, `TcpWithPasswordClient`),
the request-building and status-checking pipeline, and the three facade
operations (`status`, `whois`, `certificate_pair`) with their response decoding.

Rust strings are modelled as Lean `String` where only concatenation matters and
as `List Nat` (byte lists) where byte-level encoding (Base64) matters.  External
collaborators (the `base64` crate, `http::Uri` parsing, `std::net::SocketAddr`
display, `serde_json`, `rustls_pemfile`) are modelled explicitly where a claim
depends on them and abstracted as function parameters otherwise.
-/

/-- The crate's error enum (`Error` in `src/lib.rs`).  Payloads of wrapped
foreign errors are modelled as strings (their diagnostic message). -/
inductive Error where
  | IoError (msg : String)
  | HyperError (msg : String)
  | HttpError (msg : String)
  | UnprocessableEntity
  | ParsingError (msg : String)
  | UnknownCertificateOrKey
deriving DecidableEq, Repr

/-- An HTTP request as built by the two backends: method, target URI,
`Host` header value, and optional `Authorization` header value. -/
structure HttpRequest where
  method : String
  uri : String
  host : String
  auth : Option String
deriving DecidableEq, Repr

/-- An HTTP response: numeric status code and fully buffered body. -/
structure HttpResponse where
  status : Nat
  body : String
deriving DecidableEq, Repr

/-- The two transport backends, holding their connection descriptors:
`UnixStreamClient { socket_path }` and `TcpWithPasswordClient { port, password }`
(the password is a byte list, as a Rust `String` is UTF-8 bytes). -/
inductive Transport where
  | unix (socket_path : String)
  | tcp (port : Nat) (password : List Nat)

/- ## Base64 (model of the external `base64` crate's `STANDARD_NO_PAD` engine) -/

/-- The standard Base64 alphabet. -/
def b64Table : List Char :=
  "ABCDEFGHIJKLMNOPQRSTUVWXYZabcdefghijklmnopqrstuvwxyz0123456789+/".toList

/-- Character for a sextet value. -/
def b64char (n : Nat) : Char := b64Table.getD n 'A'

/-- Sextet value of a character, `none` when the character is not in the
alphabet. -/
def sextetOfChar (c : Char) : Option Nat :=
  let i := b64Table.findIdx (fun x => x == c)
  if i < 64 then some i else none

/-- Standard unpadded Base64 encoding of a byte list (model of the `base64`
crate's `STANDARD_NO_PAD.encode`): 3 bytes become 4 sextet characters, a final
byte becomes 2 characters, two final bytes become 3, no `=` padding. -/
def b64encode : List Nat → List Char
  | [] => []
  | [a] => [b64char (a / 4), b64char (a % 4 * 16)]
  | [a, b] => [b64char (a / 4), b64char (a % 4 * 16 + b / 16), b64char (b % 16 * 4)]
  | a :: b :: c :: rest =>
    b64char (a / 4) :: b64char (a % 4 * 16 + b / 16) ::
      b64char (b % 16 * 4 + c / 64) :: b64char (c % 64) :: b64encode rest

/-- Unpadded Base64 decoding: inverse direction, `none` on characters outside
the alphabet or an impossible length. -/
def b64decode : List Char → Option (List Nat)
  | [] => some []
  | [_] => none
  | [c1, c2] =>
    match sextetOfChar c1, sextetOfChar c2 with
    | some s1, some s2 => some [s1 * 4 + s2 / 16]
    | _, _ => none
  | [c1, c2, c3] =>
    match sextetOfChar c1, sextetOfChar c2, sextetOfChar c3 with
    | some s1, some s2, some s3 => some [s1 * 4 + s2 / 16, s2 % 16 * 16 + s3 / 4]
    | _, _, _ => none
  | c1 :: c2 :: c3 :: c4 :: rest =>
    match sextetOfChar c1, sextetOfChar c2, sextetOfChar c3, sextetOfChar c4,
        b64decode rest with
    | some s1, some s2, some s3, some s4, some bs =>
      some ((s1 * 4 + s2 / 16) :: (s2 % 16 * 16 + s3 / 4) :: (s3 % 4 * 64 + s4) :: bs)
    | _, _, _, _, _ => none

/-- HTTP Basic credential split: the username is everything before the first
colon byte (58), the password everything after it; `none` when no colon. -/
def splitCred : List Nat → Option (List Nat × List Nat)
  | [] => none
  | b :: rest =>
    if b = 58 then some ([], rest)
    else match splitCred rest with
      | some (u, pw) => some (b :: u, pw)
      | none => none

/- ## Transport backends (`src/lib.rs` lines 146-178 and 187-229) -/

/-- `UnixStreamClient::get`: builds `GET <uri>` with `Host: local-tailscaled.sock`
and no other header (lines 148-157). -/
def UnixStreamClient.get (uri : String) : HttpRequest :=
  { method := "GET", uri := uri, host := "local-tailscaled.sock", auth := none }

/-- `TcpWithPasswordClient::get`: builds `GET <uri>` with
`Host: local-tailscaled.sock` and
`Authorization: Basic <STANDARD_NO_PAD base64 of ":" ++ password>`
(lines 189-206). -/
def TcpWithPasswordClient.get (password : List Nat) (uri : String) : HttpRequest :=
  { method := "GET", uri := uri, host := "local-tailscaled.sock"
    auth := some ("Basic " ++ String.mk (b64encode (58 :: password))) }

/-- `UnixStreamClient::request`, response-validation part (lines 171-177):
a 200 response is passed through, anything else is `UnprocessableEntity`. -/
def UnixStreamClient.request (response : HttpResponse) : Except Error HttpResponse :=
  if response.status = 200 then .ok response else .error Error.UnprocessableEntity

/-- `TcpWithPasswordClient::request`, response-validation part (lines 222-228). -/
def TcpWithPasswordClient.request (response : HttpResponse) : Except Error HttpResponse :=
  if response.status = 200 then .ok response else .error Error.UnprocessableEntity

/-- Dispatch of `LocalApiClient::get` request building over the backend. -/
def transportGet : Transport → String → HttpRequest
  | .unix _, uri => UnixStreamClient.get uri
  | .tcp _ password, uri => TcpWithPasswordClient.get password uri

/-- Dispatch of the response status check over the backend. -/
def transportCheck : Transport → HttpResponse → Except Error HttpResponse
  | .unix _, r => UnixStreamClient.request r
  | .tcp _ _, r => TcpWithPasswordClient.request r

/- ## Target URIs and external URI/address models -/

/-- Model of `std::net::SocketAddr` (external to this repository), IPv4 case,
with its `Display` rendering `a.b.c.d:port`. -/
inductive SocketAddr where
  | v4 (a b c d : Nat) (port : Nat)

/-- `Display` string of a socket address, as interpolated by `format!`. -/
def SocketAddr.display : SocketAddr → String
  | .v4 a b c d port =>
    toString a ++ "." ++ toString b ++ "." ++ toString c ++ "." ++ toString d
      ++ ":" ++ toString port

/-- The static status target (`Uri::from_static`, line 115). -/
def statusUri : String := "/localapi/v0/status"

/-- The whois target built by `format!` (line 128). -/
def whoisUriString (address : SocketAddr) : String :=
  "/localapi/v0/whois?addr=" ++ address.display

/-- The certificate target built by `format!` (line 80). -/
def certUriString (domain : String) : String :=
  "/localapi/v0/cert/" ++ domain ++ "?type=pair"

/-- Modelled from the spec: validity of a character in the origin-form
path-and-query accepted by the external `http` crate's `Uri` parsing (the
`.parse()` at lines 80-82 and 128-130; that crate is not part of this
repository).  Accepted are ASCII letters, digits, and the RFC 3986
path/query characters; a space (byte 32) is rejected. -/
def validUriChar (c : Char) : Bool :=
  let n := c.toNat
  (65 ≤ n && n ≤ 90) || (97 ≤ n && n ≤ 122) || (48 ≤ n && n ≤ 57) ||
    [33, 36, 37, 38, 39, 40, 41, 42, 43, 44, 45, 46, 47, 58, 59, 61, 63, 64,
      91, 93, 95, 126].contains n

/-- Modelled from the spec: the external `http::Uri` parse succeeds exactly
when every character of the target is valid (origin form). -/
def uriParseOk (s : String) : Bool := s.toList.all validUriChar

/- ## PEM items and certificate-pair decoding (`src/lib.rs` lines 86-108) -/

/-- Model of `rustls_pemfile::Item` (external crate): the four variants the
code recognizes, and `Other` for any variant caught by the `_` arm. -/
inductive Item where
  | ECKey (data : List Nat)
  | PKCS8Key (data : List Nat)
  | RSAKey (data : List Nat)
  | X509Certificate (data : List Nat)
  | Other
deriving DecidableEq, Repr

/-- Modelled from the spec: `PrivateKey` is an opaque DER byte container
(the `types` module is the opaque domain schema). -/
structure PrivateKey where
  data : List Nat
deriving DecidableEq, Repr

/-- Modelled from the spec: `Certificate` is an opaque DER byte container. -/
structure Certificate where
  data : List Nat
deriving DecidableEq, Repr

/-- The per-item `match` of `certificate_pair` (lines 90-96): key variants map
to `(false, data)`, certificates to `(true, data)`, anything else is the
`UnknownCertificateOrKey` error. -/
def itemToEntry : Item → Except Error (Bool × List Nat)
  | .ECKey d => .ok (false, d)
  | .PKCS8Key d => .ok (false, d)
  | .RSAKey d => .ok (false, d)
  | .X509Certificate d => .ok (true, d)
  | .Other => .error Error.UnknownCertificateOrKey

/-- The `map ... collect::<Result<Vec<_>>>()?` step (lines 88-97): entries in
order, short-circuiting at the first error. -/
def collectEntries : List Item → Except Error (List (Bool × List Nat))
  | [] => .ok []
  | i :: rest =>
    match itemToEntry i with
    | .error e => .error e
    | .ok e =>
      match collectEntries rest with
      | .error e2 => .error e2
      | .ok es => .ok (e :: es)

/-- The PEM decoding core of `certificate_pair` (lines 88-108): collect the
entries, partition into certificates and keys (order preserved), keep all
certificates in order, and pop the last key as the private key, failing with
`UnknownCertificateOrKey` when there is none. -/
def certPairDecode (items : List Item) : Except Error (PrivateKey × List Certificate) :=
  match collectEntries items with
  | .error e => .error e
  | .ok entries =>
    let parts := entries.partition (fun e => e.1)
    let certificates := parts.1.map (fun e => Certificate.mk e.2)
    match parts.2.getLast? with
    | none => .error Error.UnknownCertificateOrKey
    | some e => .ok (PrivateKey.mk e.2, certificates)

/- ## Facade operations (`impl<T: LocalApiClient> LocalApi<T>`, lines 73-138) -/

/-- The request `status` hands to its client (line 115). -/
def LocalApi.statusRequest (t : Transport) : HttpRequest :=
  transportGet t statusUri

/-- The request `whois` hands to its client (lines 127-131). -/
def LocalApi.whoisRequest (t : Transport) (address : SocketAddr) : HttpRequest :=
  transportGet t (whoisUriString address)

/-- The request `certificate_pair` hands to its client (lines 79-83). -/
def LocalApi.certRequest (t : Transport) (domain : String) : HttpRequest :=
  transportGet t (certUriString domain)

/-- `LocalApi::status` (lines 112-121).  The network is a function from the
built request to the daemon's response; `parse` models
`serde_json::de::from_reader` against the opaque status schema, returning
either the decoded record or a diagnostic. -/
def LocalApi.status {α : Type} (t : Transport) (net : HttpRequest → HttpResponse)
    (parse : String → Except String α) : Except Error α :=
  match transportCheck t (net (LocalApi.statusRequest t)) with
  | .error e => .error e
  | .ok response =>
    match parse response.body with
    | .error e => .error (Error.ParsingError e)
    | .ok s => .ok s

/-- `LocalApi::whois` (lines 124-137).  The target string is first parsed as a
URI with an unchecked `unwrap` (lines 128-130): `none` models the panic. -/
def LocalApi.whois {α : Type} (t : Transport) (net : HttpRequest → HttpResponse)
    (parse : String → Except String α) (address : SocketAddr) :
    Option (Except Error α) :=
  if uriParseOk (whoisUriString address) then
    some (match transportCheck t (net (LocalApi.whoisRequest t address)) with
      | .error e => .error e
      | .ok response =>
        match parse response.body with
        | .error e => .error (Error.ParsingError e)
        | .ok w => .ok w)
  else none

/-- `LocalApi::certificate_pair` (lines 76-109).  The target string is first
parsed as a URI with an unchecked `unwrap` (lines 80-82): `none` models the
panic.  `pemParse` models `rustls_pemfile::read_all`, whose own failure is an
`io::Error` wrapped as `Error::IoError` by the `?` at line 87. -/
def LocalApi.certificate_pair (t : Transport) (net : HttpRequest → HttpResponse)
    (pemParse : String → Except String (List Item)) (domain : String) :
    Option (Except Error (PrivateKey × List Certificate)) :=
  if uriParseOk (certUriString domain) then
    some (match transportCheck t (net (LocalApi.certRequest t domain)) with
      | .error e => .error e
      | .ok response =>
        match pemParse response.body with
        | .error e => .error (Error.IoError e)
        | .ok items => certPairDecode items)
  else none

/- ## Item classification helpers (for stating the PEM decoding claims) -/

/-- Whether an item is one of the three recognized key kinds. -/
def Item.isKey : Item → Bool
  | .ECKey _ => true
  | .PKCS8Key _ => true
  | .RSAKey _ => true
  | _ => false

/-- Whether an item is an X.509 certificate. -/
def Item.isCert : Item → Bool
  | .X509Certificate _ => true
  | _ => false

/-- The DER payload of an item (empty for the unrecognized variant, which
carries none in this model). -/
def Item.pemData : Item → List Nat
  | .ECKey d => d
  | .PKCS8Key d => d
  | .RSAKey d => d
  | .X509Certificate d => d
  | .Other => []

/-- Total version of `itemToEntry` on the recognized variants, used to state
what `collectEntries` returns when no unrecognized item is present. -/
def entryOf (i : Item) : Bool × List Nat := (i.isCert, i.pemData)

/- ## Base64 lemmas -/

theorem sextetOfChar_b64char : ∀ v : Nat, v < 64 → sextetOfChar (b64char v) = some v := by
  decide

theorem b64char_ne_pad : ∀ v : Nat, v < 64 → b64char v ≠ '=' := by
  decide

/-- Eliminator following the 3-byte chunking of Base64 encoding. -/
theorem chunk3_induction {P : List Nat → Prop} (h0 : P []) (h1 : ∀ a, P [a])
    (h2 : ∀ a b, P [a, b])
    (h3 : ∀ a b c rest, P rest → P (a :: b :: c :: rest)) :
    ∀ l, P l
  | [] => h0
  | [a] => h1 a
  | [a, b] => h2 a b
  | a :: b :: c :: rest => h3 a b c rest (chunk3_induction h0 h1 h2 h3 rest)

/-- Decoding inverts encoding on byte lists. -/
theorem b64decode_b64encode (l : List Nat) (hl : ∀ b ∈ l, b < 256) :
    b64decode (b64encode l) = some l := by
  induction l using chunk3_induction with
  | h0 => rfl
  | h1 a =>
    have ha : a < 256 := hl a (by simp)
    rw [b64encode, b64decode, sextetOfChar_b64char _ (by omega),
      sextetOfChar_b64char _ (by omega)]
    simp only [Option.some.injEq, List.cons.injEq, and_true]
    omega
  | h2 a b =>
    have ha : a < 256 := hl a (by simp)
    have hb : b < 256 := hl b (by simp)
    rw [b64encode, b64decode, sextetOfChar_b64char _ (by omega),
      sextetOfChar_b64char _ (by omega), sextetOfChar_b64char _ (by omega)]
    simp only [Option.some.injEq, List.cons.injEq, and_true]
    omega
  | h3 a b c rest ih =>
    have ha : a < 256 := hl a (by simp)
    have hb : b < 256 := hl b (by simp)
    have hc : c < 256 := hl c (by simp)
    have ihr : b64decode (b64encode rest) = some rest :=
      ih (fun x hx => hl x (by simp [hx]))
    rw [b64encode, b64decode, sextetOfChar_b64char _ (by omega),
      sextetOfChar_b64char _ (by omega), sextetOfChar_b64char _ (by omega),
      sextetOfChar_b64char _ (by omega), ihr]
    simp only [Option.some.injEq, List.cons.injEq, and_true]
    refine ⟨by omega, by omega, by omega⟩

/-- The encoding never emits the padding character. -/
theorem b64encode_no_pad (l : List Nat) (hl : ∀ b ∈ l, b < 256) :
    '=' ∉ b64encode l := by
  induction l using chunk3_induction with
  | h0 => simp [b64encode]
  | h1 a =>
    have ha : a < 256 := hl a (by simp)
    simp only [b64encode, List.mem_cons, List.not_mem_nil, or_false]
    push_neg
    exact ⟨(b64char_ne_pad _ (by omega)).symm, (b64char_ne_pad _ (by omega)).symm⟩
  | h2 a b =>
    have ha : a < 256 := hl a (by simp)
    have hb : b < 256 := hl b (by simp)
    simp only [b64encode, List.mem_cons, List.not_mem_nil, or_false]
    push_neg
    exact ⟨(b64char_ne_pad _ (by omega)).symm, (b64char_ne_pad _ (by omega)).symm,
      (b64char_ne_pad _ (by omega)).symm⟩
  | h3 a b c rest ih =>
    have ha : a < 256 := hl a (by simp)
    have hb : b < 256 := hl b (by simp)
    have hc : c < 256 := hl c (by simp)
    have ihr := ih (fun x hx => hl x (by simp [hx]))
    simp only [b64encode, List.mem_cons]
    push_neg
    exact ⟨(b64char_ne_pad _ (by omega)).symm, (b64char_ne_pad _ (by omega)).symm,
      (b64char_ne_pad _ (by omega)).symm, (b64char_ne_pad _ (by omega)).symm, ihr⟩

/- ## Transport status-check lemmas -/

theorem transportCheck_of_ne (t : Transport) (r : HttpResponse) (h : r.status ≠ 200) :
    transportCheck t r = .error Error.UnprocessableEntity := by
  cases t <;>
    simp [transportCheck, UnixStreamClient.request, TcpWithPasswordClient.request, h]

theorem transportCheck_of_eq (t : Transport) (r : HttpResponse) (h : r.status = 200) :
    transportCheck t r = .ok r := by
  cases t <;>
    simp [transportCheck, UnixStreamClient.request, TcpWithPasswordClient.request, h]

/- ## PEM collection lemmas -/

theorem itemToEntry_of_ne (i : Item) (h : i ≠ Item.Other) :
    itemToEntry i = .ok (entryOf i) := by
  cases i <;> simp_all [itemToEntry, entryOf, Item.isCert, Item.pemData]

theorem collectEntries_eq_ok (items : List Item) (h : Item.Other ∉ items) :
    collectEntries items = .ok (items.map entryOf) := by
  induction items with
  | nil => rfl
  | cons i rest ih =>
    have hi : i ≠ Item.Other := fun he => h (he ▸ List.mem_cons_self i rest)
    have hrest : Item.Other ∉ rest := fun hm => h (List.mem_cons_of_mem i hm)
    simp [collectEntries, itemToEntry_of_ne i hi, ih hrest]

theorem collectEntries_eq_err (items : List Item) (h : Item.Other ∈ items) :
    collectEntries items = .error Error.UnknownCertificateOrKey := by
  induction items with
  | nil => cases h
  | cons i rest ih =>
    by_cases hi : i = Item.Other
    · subst hi; simp [collectEntries, itemToEntry]
    · have hrest : Item.Other ∈ rest := by
        rcases List.mem_cons.mp h with h1 | h1
        · exact absurd h1.symm hi
        · exact h1
      simp [collectEntries, itemToEntry_of_ne i hi, ih hrest]

theorem keysFilter_eq (items : List Item) (h : Item.Other ∉ items) :
    (items.map entryOf).filter (fun e => !e.1) = (items.filter Item.isKey).map entryOf := by
  rw [List.filter_map]
  congr 1
  apply List.filter_congr
  intro i hi
  cases i with
  | Other => exact absurd hi h
  | ECKey d => simp [entryOf, Item.isCert, Item.isKey]
  | PKCS8Key d => simp [entryOf, Item.isCert, Item.isKey]
  | RSAKey d => simp [entryOf, Item.isCert, Item.isKey]
  | X509Certificate d => simp [entryOf, Item.isCert, Item.isKey]

theorem certsFilter_eq (items : List Item) :
    (items.map entryOf).filter (fun e => e.1) = (items.filter Item.isCert).map entryOf := by
  rw [List.filter_map]
  congr 1

/-- Closed form of the PEM decoding when every item is recognized: the private
key is the last key item, the certificates are the certificate items in
order. -/
theorem certPairDecode_no_other (items : List Item) (h : Item.Other ∉ items) :
    certPairDecode items =
      match (items.filter Item.isKey).getLast? with
      | none => Except.error Error.UnknownCertificateOrKey
      | some k => Except.ok (PrivateKey.mk k.pemData,
          (items.filter Item.isCert).map (fun i => Certificate.mk i.pemData)) := by
  unfold certPairDecode
  rw [collectEntries_eq_ok items h]
  simp only [List.partition_eq_filter_filter, Function.comp_def]
  rw [keysFilter_eq items h, certsFilter_eq items, List.getLast?_map]
  cases hk : (items.filter Item.isKey).getLast? with
  | none => simp
  | some k => simp [entryOf, List.map_map, Function.comp]

theorem certPairDecode_ok_no_other (items : List Item)
    (res : PrivateKey × List Certificate) (hres : certPairDecode items = .ok res) :
    Item.Other ∉ items := by
  intro hmem
  rw [certPairDecode] at hres
  rw [collectEntries_eq_err items hmem] at hres
  cases hres

/- ## Claim theorems -/

/-- C1: for every operation and every transport backend, a response with HTTP
status other than 200 makes the operation fail with `UnprocessableEntity`,
regardless of the response body (the network function, hence the body, is
arbitrary and the body is never decoded). -/
theorem c1_non_success_status {α : Type} (t : Transport)
    (net : HttpRequest → HttpResponse) (hstatus : ∀ req, (net req).status ≠ 200) :
    (∀ parse : String → Except String α,
      LocalApi.status t net parse = .error Error.UnprocessableEntity) ∧
    (∀ (parse : String → Except String α) (address : SocketAddr),
      uriParseOk (whoisUriString address) = true →
      LocalApi.whois t net parse address = some (.error Error.UnprocessableEntity)) ∧
    (∀ (pemParse : String → Except String (List Item)) (domain : String),
      uriParseOk (certUriString domain) = true →
      LocalApi.certificate_pair t net pemParse domain =
        some (.error Error.UnprocessableEntity)) := by
  refine ⟨fun parse => ?_, fun parse address haddr => ?_, fun pp domain hdom => ?_⟩
  · have hc := transportCheck_of_ne t (net (LocalApi.statusRequest t)) (hstatus _)
    simp [LocalApi.status, hc]
  · have hc := transportCheck_of_ne t (net (LocalApi.whoisRequest t address)) (hstatus _)
    simp [LocalApi.whois, haddr, hc]
  · have hc := transportCheck_of_ne t (net (LocalApi.certRequest t domain)) (hstatus _)
    simp [LocalApi.certificate_pair, hdom, hc]

theorem c1_witness :
    (∀ req, ((fun _ : HttpRequest => HttpResponse.mk 404 "irrelevant") req).status ≠ 200) ∧
    LocalApi.status (Transport.unix "/sock")
      (fun _ : HttpRequest => HttpResponse.mk 404 "irrelevant")
      (fun _ : String => (Except.ok 0 : Except String Nat)) =
        .error Error.UnprocessableEntity :=
  ⟨fun _ => show (404 : Nat) ≠ 200 by decide,
    (c1_non_success_status (Transport.unix "/sock")
      (fun _ : HttpRequest => HttpResponse.mk 404 "irrelevant")
      (fun _ => show (404 : Nat) ≠ 200 by decide)).1
      (fun _ : String => (Except.ok 0 : Except String Nat))⟩

/-- C2: the TCP backend's Authorization header is `Basic ` followed by the
unpadded standard Base64 of `:` + password, for every request it builds;
decoding that credential recovers the empty username and the password. -/
theorem c2_basic_auth_roundtrip (password : List Nat) (hp : ∀ b ∈ password, b < 256)
    (port : Nat) (uri : String) :
    (transportGet (Transport.tcp port password) uri).auth =
      some ("Basic " ++ String.mk (b64encode (58 :: password))) ∧
    b64decode (b64encode (58 :: password)) = some (58 :: password) ∧
    splitCred (58 :: password) = some ([], password) ∧
    '=' ∉ b64encode (58 :: password) := by
  have hb : ∀ b ∈ (58 :: password), b < 256 := by
    intro b hmem
    rcases List.mem_cons.mp hmem with h | h
    · omega
    · exact hp b h
  exact ⟨rfl, b64decode_b64encode _ hb, by simp [splitCred], b64encode_no_pad _ hb⟩

theorem c2_witness :
    (∀ b ∈ [112, 97, 115, 115], b < 256) ∧
    ((transportGet (Transport.tcp 8080 [112, 97, 115, 115]) "/localapi/v0/status").auth =
      some ("Basic " ++ String.mk (b64encode (58 :: [112, 97, 115, 115]))) ∧
    b64decode (b64encode (58 :: [112, 97, 115, 115])) = some (58 :: [112, 97, 115, 115]) ∧
    splitCred (58 :: [112, 97, 115, 115]) = some ([], [112, 97, 115, 115]) ∧
    '=' ∉ b64encode (58 :: [112, 97, 115, 115])) :=
  ⟨by decide,
    c2_basic_auth_roundtrip [112, 97, 115, 115] (by decide) 8080 "/localapi/v0/status"⟩

/-- C3 counterexample: the claim says the Host header is `local-daemon.sock`,
but the request built for the status endpoint over the Unix backend carries
`local-tailscaled.sock`. -/
theorem c3_host_counterexample :
    ¬ ((LocalApi.statusRequest (Transport.unix "/var/run/tailscale/tailscaled.sock")).host
      = "local-daemon.sock") := by
  decide

/-- C3 (amended): every request built by either transport backend, for every
target path, carries the fixed Host header value `local-tailscaled.sock`. -/
theorem c3_host_header (t : Transport) (uri : String) :
    (transportGet t uri).host = "local-tailscaled.sock" := by
  cases t <;> rfl

/-- C7: each facade operation targets exactly its specified URI with method
GET: `/localapi/v0/status`, `/localapi/v0/whois?addr=<address>` with the
address's literal string form, and `/localapi/v0/cert/<domain>?type=pair` with
the domain inserted verbatim. -/
theorem c7_facade_targets (t : Transport) :
    ((LocalApi.statusRequest t).method = "GET" ∧
      (LocalApi.statusRequest t).uri = "/localapi/v0/status") ∧
    (∀ address : SocketAddr, (LocalApi.whoisRequest t address).method = "GET" ∧
      (LocalApi.whoisRequest t address).uri =
        "/localapi/v0/whois?addr=" ++ address.display) ∧
    (∀ domain : String, (LocalApi.certRequest t domain).method = "GET" ∧
      (LocalApi.certRequest t domain).uri =
        "/localapi/v0/cert/" ++ domain ++ "?type=pair") := by
  refine ⟨⟨?_, ?_⟩, fun address => ⟨?_, ?_⟩, fun domain => ⟨?_, ?_⟩⟩ <;> cases t <;> rfl

/-- C9: the Unix backend attaches no Authorization header; only the TCP
backend attaches the Basic-credentials header. -/
theorem c9_authorization_header (uri : String) :
    (∀ socket_path, (transportGet (Transport.unix socket_path) uri).auth = none) ∧
    (∀ port password, (transportGet (Transport.tcp port password) uri).auth =
      some ("Basic " ++ String.mk (b64encode (58 :: password)))) :=
  ⟨fun _ => rfl, fun _ _ => rfl⟩

/-- C4: PEM decoding fails with `UnknownCertificateOrKey` exactly when the
item sequence contains an unrecognized block or contains no key block; an
unrecognized block is fatal even alongside valid keys and certificates. -/
theorem c4_unknown_certificate_iff (items : List Item) :
    certPairDecode items = .error Error.UnknownCertificateOrKey ↔
      (Item.Other ∈ items ∨ ∀ i ∈ items, i.isKey = false) := by
  by_cases h : Item.Other ∈ items
  · unfold certPairDecode
    rw [collectEntries_eq_err items h]
    exact iff_of_true rfl (Or.inl h)
  · rw [certPairDecode_no_other items h]
    cases hk : (items.filter Item.isKey).getLast? with
    | none =>
      have hk2 : ∀ i ∈ items, i.isKey = false := by
        rw [List.getLast?_eq_none_iff, List.filter_eq_nil_iff] at hk
        intro i hi
        simpa using hk i hi
      exact iff_of_true rfl (Or.inr hk2)
    | some k =>
      refine iff_of_false (by simp) ?_
      rintro (ho | hall)
      · exact h ho
      · have hnil : items.filter Item.isKey = [] :=
          List.filter_eq_nil_iff.mpr (fun a ha => by simp [hall a ha])
        rw [hnil] at hk
        cases hk

/-- C5: whenever decoding succeeds and the sequence carries two or more key
blocks, the returned private key is exactly the last key block, wherever the
certificate blocks sit around them. -/
theorem c5_last_key_wins (items : List Item) (res : PrivateKey × List Certificate)
    (hres : certPairDecode items = .ok res)
    (_htwo : 2 ≤ (items.filter Item.isKey).length) :
    ∃ k, (items.filter Item.isKey).getLast? = some k ∧
      res.1 = PrivateKey.mk k.pemData := by
  have h := certPairDecode_ok_no_other items res hres
  rw [certPairDecode_no_other items h] at hres
  cases hk : (items.filter Item.isKey).getLast? with
  | none => rw [hk] at hres; cases hres
  | some k =>
    rw [hk] at hres
    cases hres
    exact ⟨k, rfl, rfl⟩

theorem c5_witness :
    certPairDecode [Item.ECKey [1], Item.X509Certificate [5], Item.PKCS8Key [3]] =
      .ok (PrivateKey.mk [3], [Certificate.mk [5]]) ∧
    2 ≤ ([Item.ECKey [1], Item.X509Certificate [5], Item.PKCS8Key [3]].filter
      Item.isKey).length ∧
    ∃ k, ([Item.ECKey [1], Item.X509Certificate [5], Item.PKCS8Key [3]].filter
        Item.isKey).getLast? = some k ∧
      (PrivateKey.mk [3], [Certificate.mk ([5] : List Nat)]).1 = PrivateKey.mk k.pemData :=
  ⟨by rfl, by decide, c5_last_key_wins _ _ (by rfl) (by decide)⟩

/-- C6: whenever decoding succeeds, the returned certificates are exactly the
X.509 blocks in encounter order; in particular one RSA key followed by two
certificates decodes to that key plus both certificates in order. -/
theorem c6_certificates_in_order :
    (∀ (items : List Item) (res : PrivateKey × List Certificate),
      certPairDecode items = .ok res →
      res.2 = (items.filter Item.isCert).map (fun i => Certificate.mk i.pemData)) ∧
    (∀ k c1 c2 : List Nat,
      certPairDecode [Item.RSAKey k, Item.X509Certificate c1, Item.X509Certificate c2] =
        .ok (PrivateKey.mk k, [Certificate.mk c1, Certificate.mk c2])) := by
  constructor
  · intro items res hres
    have h := certPairDecode_ok_no_other items res hres
    rw [certPairDecode_no_other items h] at hres
    cases hk : (items.filter Item.isKey).getLast? with
    | none => rw [hk] at hres; cases hres
    | some k =>
      rw [hk] at hres
      cases hres
      rfl
  · intro k c1 c2
    rfl

theorem c6_witness :
    certPairDecode [Item.RSAKey [7], Item.X509Certificate [8], Item.X509Certificate [9]] =
      .ok (PrivateKey.mk [7], [Certificate.mk [8], Certificate.mk [9]]) ∧
    (PrivateKey.mk ([7] : List Nat), [Certificate.mk ([8] : List Nat),
        Certificate.mk ([9] : List Nat)]).2 =
      ([Item.RSAKey [7], Item.X509Certificate [8], Item.X509Certificate [9]].filter
        Item.isCert).map (fun i => Certificate.mk i.pemData) :=
  ⟨by rfl,
    c6_certificates_in_order.1 _ _ (c6_certificates_in_order.2 [7] [8] [9])⟩

/-- C8: with a 200 response, a JSON parse failure makes `status` and `whois`
fail with `ParsingError` wrapping the parser's diagnostic, and a parse success
returns exactly the fully decoded record, never a partial one. -/
theorem c8_json_parse_errors {α : Type} (t : Transport)
    (net : HttpRequest → HttpResponse) (parse : String → Except String α) :
    ((net (LocalApi.statusRequest t)).status = 200 →
      (∀ e, parse (net (LocalApi.statusRequest t)).body = .error e →
        LocalApi.status t net parse = .error (Error.ParsingError e)) ∧
      (∀ s, parse (net (LocalApi.statusRequest t)).body = .ok s →
        LocalApi.status t net parse = .ok s)) ∧
    (∀ address : SocketAddr, uriParseOk (whoisUriString address) = true →
      (net (LocalApi.whoisRequest t address)).status = 200 →
      (∀ e, parse (net (LocalApi.whoisRequest t address)).body = .error e →
        LocalApi.whois t net parse address = some (.error (Error.ParsingError e))) ∧
      (∀ w, parse (net (LocalApi.whoisRequest t address)).body = .ok w →
        LocalApi.whois t net parse address = some (.ok w))) := by
  constructor
  · intro h200
    have hc := transportCheck_of_eq t _ h200
    constructor
    · intro e he
      simp [LocalApi.status, hc, he]
    · intro s hs
      simp [LocalApi.status, hc, hs]
  · intro address haddr h200
    have hc := transportCheck_of_eq t _ h200
    constructor
    · intro e he
      simp [LocalApi.whois, haddr, hc, he]
    · intro w hw
      simp [LocalApi.whois, haddr, hc, hw]

theorem c8_witness :
    ((fun _ : HttpRequest => HttpResponse.mk 200 "notjson")
      (LocalApi.statusRequest (Transport.unix "/sock"))).status = 200 ∧
    (fun _ : String => (Except.error "expected value" : Except String Nat))
      ((fun _ : HttpRequest => HttpResponse.mk 200 "notjson")
        (LocalApi.statusRequest (Transport.unix "/sock"))).body = .error "expected value" ∧
    LocalApi.status (Transport.unix "/sock")
      (fun _ : HttpRequest => HttpResponse.mk 200 "notjson")
      (fun _ : String => (Except.error "expected value" : Except String Nat)) =
        .error (Error.ParsingError "expected value") :=
  ⟨rfl, rfl,
    ((c8_json_parse_errors (Transport.unix "/sock")
      (fun _ : HttpRequest => HttpResponse.mk 200 "notjson")
      (fun _ : String => (Except.error "expected value" : Except String Nat))).1
      rfl).1 "expected value" rfl⟩

/-- C10: the certificate-pair URI parse is an unchecked unwrap: for every
domain whose interpolation yields a valid URI the call proceeds, while a
domain containing a space makes the parse fail and the operation panic
(modelled as `none`) instead of returning an error value. -/
theorem c10_uri_unwrap :
    (∀ (domain : String) (t : Transport) (net : HttpRequest → HttpResponse)
        (pemParse : String → Except String (List Item)),
      uriParseOk (certUriString domain) = true →
      (LocalApi.certificate_pair t net pemParse domain).isSome = true) ∧
    (∀ (t : Transport) (net : HttpRequest → HttpResponse)
        (pemParse : String → Except String (List Item)),
      LocalApi.certificate_pair t net pemParse "a b" = none) := by
  constructor
  · intro domain t net pp h
    simp [LocalApi.certificate_pair, h]
  · intro t net pp
    have h : uriParseOk (certUriString "a b") = false := by rfl
    simp [LocalApi.certificate_pair, h]

theorem c10_witness :
    uriParseOk (certUriString "example.com") = true ∧
    (LocalApi.certificate_pair (Transport.unix "/sock")
      (fun _ : HttpRequest => HttpResponse.mk 404 "")
      (fun _ : String => Except.ok []) "example.com").isSome = true ∧
    LocalApi.certificate_pair (Transport.unix "/sock")
      (fun _ : HttpRequest => HttpResponse.mk 404 "")
      (fun _ : String => Except.ok []) "a b" = none :=
  ⟨by rfl,
    c10_uri_unwrap.1 "example.com" (Transport.unix "/sock")
      (fun _ : HttpRequest => HttpResponse.mk 404 "")
      (fun _ : String => Except.ok []) (by rfl),
    c10_uri_unwrap.2 (Transport.unix "/sock")
      (fun _ : HttpRequest => HttpResponse.mk 404 "")
      (fun _ : String => Except.ok [])⟩
